import Mathlib

/-!
# Verification of the stock pipeline (`scripts/fetch_and_store.py`)

A shallow embedding of the fetch → parse → upsert pipeline of
`scripts/fetch_and_store.py` and proofs of its specified properties.

Modelling conventions:
* The process environment (`os.getenv`) is a partial map `String → Option String`.
* Exceptions become `Except` / `Option` results.  The inductive `PipelineError`
  mirrors which `raise` site fired and what data its message carries.
* The single HTTP round trip made by `fetch_stock_data` is an input
  (`HttpResult`): timeout, transport error, or a response with a status flag
  and an optional parsed JSON body.  Whether the request was issued at all is
  returned as an explicit `Bool` so that "no network call is made" is provable.
* Python `float(str)` is modelled exactly as parsing the decimal literal to a
  rational and rounding to the nearest IEEE-754 binary64 value
  (round-to-nearest, ties-to-even), represented as a dyadic rational.
  Overflow/subnormal ranges and the special literals inf/nan are outside the
  inputs this program meets and are not modelled.
* The Postgres table `daily_stock_prices` is a list of records with primary
  key `(symbol, trade_date)`; the `INSERT ... ON CONFLICT DO UPDATE` executed
  by `upsert_stock_data` is given Postgres semantics, including the error when
  one batch contains two rows with the same key ("cannot affect row a second
  time").  External database failures (connectivity loss, constraint
  violations) are injected through an oracle parameter, since the code's
  guarantees (rollback, re-raise) must hold for an arbitrary such failure.
-/

attribute [local semireducible] Rat.mul Rat.add Rat.sub Rat.inv

namespace StockPipeline

/-- The process environment: `os.getenv` returns `none` for an unset variable. -/
def Env := String → Option String

/-- Errors raised by the pipeline.  Each constructor corresponds to one `raise`
site of `fetch_and_store.py` (the spec's taxonomy: `ConfigurationError`,
`TimeoutError`, `NetworkError`, `ParseError`, `RemoteAPIError`,
`ConnectionError`, `StorageError`). -/
inductive PipelineError
  /-- `get_env_var`: `RuntimeError(f"Required environment variable ... is not set")`. -/
  | configMissing (name : String)
  /-- `requests.exceptions.Timeout` re-raised by `fetch_stock_data`. -/
  | timeout
  /-- `requests.exceptions.RequestException` (incl. `raise_for_status` on a bad
  HTTP status) re-raised by `fetch_stock_data`. -/
  | requestError
  /-- `ValueError` from `resp.json()` on an unparseable body, re-raised. -/
  | jsonError
  /-- `RuntimeError(f"API error: {data['Error Message']}")`: the provider's
  message is carried in the constructor. -/
  | apiError (message : String)
  /-- `RuntimeError("Unexpected API response: 'Time Series (Daily)' not found")`. -/
  | unexpectedResponse
  /-- `psycopg2.Error` from `psycopg2.connect`, re-raised by `get_db_connection`. -/
  | connectionFailed (message : String)
  /-- `psycopg2.Error` raised inside the storage layer (`ensure_table_exists`
  or `upsert_stock_data`), re-raised after rollback. -/
  | storageError (message : String)
deriving DecidableEq, Repr

/-- Python truthiness of `os.getenv`'s result: `None` and `""` are falsy. -/
def optStrFalsy : Option String → Bool
  | none => true
  | some s => s.isEmpty

/-- `get_env_var(name, default, required)`: looks `name` up in the environment,
falling back to `default`, and raises when `required` and the value is falsy
(`if required and not value`). -/
def get_env_var (env : Env) (name : String) (default : Option String)
    (required : Bool) : Except PipelineError (Option String) :=
  let value : Option String :=
    match env name with
    | some v => some v
    | none => default
  if required && optStrFalsy value then
    .error (.configMissing name)
  else
    .ok value

/-- One day's raw field mapping, e.g. `"1. open" ↦ "370.0"` (a Python `dict`,
modelled as an association list in insertion order with unique keys). -/
def FieldMap := List (String × String)

/-- The raw `"Time Series (Daily)"` mapping: date string ↦ field mapping. -/
def RawTimeSeries := List (String × List (String × String))

/-- The JSON body of a successful Alpha Vantage response, restricted to the two
keys `fetch_stock_data` inspects (`"Error Message"` and
`"Time Series (Daily)"`); any other keys are irrelevant to the code. -/
structure ApiBody where
  errorMessage : Option String
  timeSeries : Option RawTimeSeries

/-- Outcome of the single `requests.get` call: a timeout, another transport
error, or a response with an HTTP-success flag (`raise_for_status` passes
exactly when `statusOk`) and an optional parsed JSON body (`none` when
`resp.json()` raises `ValueError`). -/
inductive HttpResult
  | timeout
  | netError
  | response (statusOk : Bool) (body : Option ApiBody)

/-- `fetch_stock_data(symbol)`: resolves the API key (required), then issues
the request and classifies the response.  The second component records whether
the HTTP request was issued. -/
def fetch_stock_data (env : Env) (http : HttpResult) :
    Except PipelineError RawTimeSeries × Bool :=
  match get_env_var env "ALPHAVANTAGE_API_KEY" none true with
  | .error e => (.error e, false)
  | .ok _ =>
    match http with
    | .timeout => (.error .timeout, true)
    | .netError => (.error .requestError, true)
    | .response statusOk body =>
      if !statusOk then
        (.error .requestError, true)
      else
        match body with
        | none => (.error .jsonError, true)
        | some data =>
          match data.errorMessage with
          | some m => (.error (.apiError m), true)
          | none =>
            match data.timeSeries with
            | none => (.error .unexpectedResponse, true)
            | some ts => (.ok ts, true)

/-! ## Dates: `datetime.strptime(date_str, "%Y-%m-%d").date()`

CPython's `_strptime` compiles `"%Y-%m-%d"` to the regular expression
`(?P<Y>\d\d\d\d)-(?P<m>1[0-2]|0[1-9]|[1-9])-(?P<d>3[01]|[12]\d|0[1-9]|[1-9])`,
requires the whole input to be consumed ("unconverted data remains"), and then
`datetime.date` validates the calendar date (year ≥ 1, day within the month,
Gregorian leap years). -/

structure PyDate where
  year : Nat
  month : Nat
  day : Nat
deriving DecidableEq, Repr

def isLeapYear (y : Nat) : Bool :=
  y % 4 == 0 && (y % 100 != 0 || y % 400 == 0)

def daysInMonth (y m : Nat) : Nat :=
  if m == 2 then (if isLeapYear y then 29 else 28)
  else if m == 4 || m == 6 || m == 9 || m == 11 then 30
  else 31

def digitVal (c : Char) : Nat := c.toNat - 48

/-- Match exactly four digits (the `%Y` pattern). -/
def takeYear : List Char → Option (Nat × List Char)
  | a :: b :: c :: d :: rest =>
    if a.isDigit && b.isDigit && c.isDigit && d.isDigit then
      some (digitVal a * 1000 + digitVal b * 100 + digitVal c * 10 + digitVal d, rest)
    else none
  | _ => none

/-- Match the `%m` pattern `1[0-2]|0[1-9]|[1-9]` (with backtracking this is:
two digits whose value is 1–12, else one digit 1–9). -/
def takeMonth : List Char → Option (Nat × List Char)
  | a :: b :: rest =>
    if a.isDigit && b.isDigit && 1 ≤ digitVal a * 10 + digitVal b
        && digitVal a * 10 + digitVal b ≤ 12 then
      some (digitVal a * 10 + digitVal b, rest)
    else if a.isDigit && 1 ≤ digitVal a then some (digitVal a, b :: rest)
    else none
  | [a] => if a.isDigit && 1 ≤ digitVal a then some (digitVal a, []) else none
  | [] => none

/-- Match the `%d` pattern `3[01]|[12]\d|0[1-9]|[1-9]` (two digits valued 1–31,
else one digit 1–9). -/
def takeDay : List Char → Option (Nat × List Char)
  | a :: b :: rest =>
    if a.isDigit && b.isDigit && 1 ≤ digitVal a * 10 + digitVal b
        && digitVal a * 10 + digitVal b ≤ 31 then
      some (digitVal a * 10 + digitVal b, rest)
    else if a.isDigit && 1 ≤ digitVal a then some (digitVal a, b :: rest)
    else none
  | [a] => if a.isDigit && 1 ≤ digitVal a then some (digitVal a, []) else none
  | [] => none

/-- `datetime.strptime(s, "%Y-%m-%d").date()`, `none` when Python raises
`ValueError`. -/
def strptimeYMD (s : String) : Option PyDate := do
  let (y, r1) ← takeYear s.data
  match r1 with
  | '-' :: r2 =>
    let (m, r3) ← takeMonth r2
    match r3 with
    | '-' :: r4 =>
      let (d, r5) ← takeDay r4
      if r5 = [] && 1 ≤ y && d ≤ daysInMonth y m then
        some ⟨y, m, d⟩
      else none
    | _ => none
  | _ => none

/-! ## Numbers: Python `float(str)` and `int(float)`

`float(str)` parses a decimal literal (optional surrounding whitespace,
optional sign, digits with an optional fraction part, optional decimal
exponent) and rounds the exact value to the nearest IEEE-754 binary64
(ties to even).  We represent the result as an exact dyadic rational; the
normal binary64 range comfortably contains every value this pipeline meets,
so overflow and subnormals are not modelled, nor are the non-finite literals
`inf`/`nan`. -/

def digitsToNat (l : List Char) : Nat :=
  l.foldl (fun n c => 10 * n + digitVal c) 0

def spanDigits (l : List Char) : List Char × List Char :=
  (l.takeWhile Char.isDigit, l.dropWhile Char.isDigit)

/-- Parse the exact rational value of a Python float literal, `none` when
`float(str)` raises `ValueError`. -/
def parseDecimal (s : String) : Option ℚ :=
  let cs := (s.data.dropWhile Char.isWhitespace).reverse.dropWhile Char.isWhitespace |>.reverse
  let (neg, cs) :=
    match cs with
    | '-' :: rest => (true, rest)
    | '+' :: rest => (false, rest)
    | rest => (false, rest)
  let (intDigits, r1) := spanDigits cs
  let (fracDigits, r2) :=
    match r1 with
    | '.' :: rest => spanDigits rest
    | _ => ([], r1)
  if intDigits = [] && fracDigits = [] then none
  else
    let mant : ℚ := (digitsToNat (intDigits ++ fracDigits) : ℚ) / (10 : ℚ) ^ fracDigits.length
    let signed := fun (q : ℚ) => if neg then -q else q
    match r2 with
    | [] => some (signed mant)
    | 'e' :: r3 => (parseExpPart r3).map fun k => signed (mant * (10 : ℚ) ^ k)
    | 'E' :: r3 => (parseExpPart r3).map fun k => signed (mant * (10 : ℚ) ^ k)
    | _ => none
where
  /-- The exponent part after `e`/`E`: optional sign, at least one digit,
  nothing after. -/
  parseExpPart (l : List Char) : Option ℤ :=
    let (eneg, l) :=
      match l with
      | '-' :: rest => (true, rest)
      | '+' :: rest => (false, rest)
      | rest => (false, rest)
    let (eDigits, r) := spanDigits l
    if eDigits = [] || r ≠ [] then none
    else some (if eneg then -(digitsToNat eDigits : ℤ) else (digitsToNat eDigits : ℤ))

/-- `⌊log₂ n⌋` by repeated halving; the fuel bounds the recursion depth and is
ample whenever `n ≤ fuel`. -/
def log2Fuel : Nat → Nat → Nat
  | 0, _ => 0
  | fuel + 1, n => if n ≤ 1 then 0 else log2Fuel fuel (n / 2) + 1

/-- `⌊log₂ n⌋` for `n ≥ 1` (and `0` at `0`). -/
def natLog2 (n : Nat) : Nat := log2Fuel n n

/-- `⌊log₂ q⌋` for a positive rational, computed from the bit lengths of the
numerator and denominator. -/
def ratLog2Floor (q : ℚ) : ℤ :=
  let k : ℤ := (natLog2 q.num.toNat : ℤ) - (natLog2 q.den : ℤ)
  if (2 : ℚ) ^ k ≤ q then k else k - 1

/-- Round an exact rational to the nearest IEEE-754 binary64 value
(round-to-nearest, ties-to-even), as a dyadic rational.  Valid in the normal
range of binary64, which covers all inputs of this pipeline. -/
def roundToBinary64 (q : ℚ) : ℚ :=
  if q = 0 then 0
  else
    let a := |q|
    let e := ratLog2Floor a
    let ulpExp := e - 52
    let scaled := a * (2 : ℚ) ^ (-ulpExp)
    let fl : ℤ := ⌊scaled⌋
    let fr := scaled - fl
    let m : ℤ :=
      if fr < 1 / 2 then fl
      else if 1 / 2 < fr then fl + 1
      else if fl % 2 = 0 then fl else fl + 1
    (if q < 0 then -1 else 1) * m * (2 : ℚ) ^ ulpExp

/-- Python `float(s)`. -/
def pyFloat (s : String) : Option ℚ :=
  (parseDecimal s).map roundToBinary64

/-- Python `int(q)` for a float `q`: truncation toward zero. -/
def pyIntOfFloat (q : ℚ) : ℤ :=
  q.num.tdiv q.den

/-! ## `parse_time_series` -/

/-- One row destined for DB insertion:
`(symbol, trade_date, open_price, high_price, low_price, close_price, volume)`.
Price fields hold the exact value of the Python float; `volume` the Python int. -/
structure PriceRow where
  symbol : String
  trade_date : PyDate
  open_price : ℚ
  high_price : ℚ
  low_price : ℚ
  close_price : ℚ
  volume : ℤ
deriving DecidableEq, Repr

/-- `daily_data[key]`: Python `dict` lookup, `none` for a `KeyError`. -/
def dictGet (d : List (String × String)) (key : String) : Option String :=
  (d.find? (fun p => p.1 = key)).map Prod.snd

/-- The body of the `for` loop of `parse_time_series`: build the row for one
`(date_str, daily_data)` entry, `none` when a `KeyError` or `ValueError` is
raised (missing field, non-numeric field, or bad date).  The five fields are
read and coerced in source order; the first failure aborts the entry. -/
def parseEntry (symbol : String) (date_str : String)
    (daily_data : List (String × String)) : Option PriceRow := do
  let trade_date ← strptimeYMD date_str
  let open_price ← pyFloat (← dictGet daily_data "1. open")
  let high_price ← pyFloat (← dictGet daily_data "2. high")
  let low_price ← pyFloat (← dictGet daily_data "3. low")
  let close_price ← pyFloat (← dictGet daily_data "4. close")
  let volume ← (pyFloat (← dictGet daily_data "5. volume")).map pyIntOfFloat
  pure ⟨symbol, trade_date, open_price, high_price, low_price, close_price, volume⟩

/-- `parse_time_series(symbol, time_series)`: convert the raw time series into
rows, appending one row per well-formed entry and skipping (with a warning)
each entry whose parse raises. -/
def parse_time_series (symbol : String)
    (time_series : List (String × List (String × String))) : List PriceRow :=
  time_series.foldl
    (fun rows e =>
      match parseEntry symbol e.1 e.2 with
      | some row => rows ++ [row]
      | none => rows)
    []

/-- The accumulating loop of `parse_time_series` is `List.filterMap` of the
per-entry parse. -/
theorem parse_time_series_eq_filterMap (symbol : String)
    (ts : List (String × List (String × String))) :
    parse_time_series symbol ts = ts.filterMap (fun e => parseEntry symbol e.1 e.2) := by
  suffices h : ∀ acc : List PriceRow,
      ts.foldl
        (fun rows e =>
          match parseEntry symbol e.1 e.2 with
          | some row => rows ++ [row]
          | none => rows)
        acc = acc ++ ts.filterMap (fun e => parseEntry symbol e.1 e.2) by
    simpa [parse_time_series] using h []
  induction ts with
  | nil => simp
  | cons e rest ih =>
    intro acc
    cases h : parseEntry symbol e.1 e.2 <;> simp [List.filterMap_cons, h, ih]

/-! ## The database: `daily_stock_prices` and `upsert_stock_data`

The table `daily_stock_prices` (see `ensure_table_exists`) has primary key
`(symbol, trade_date)` and a `last_updated` timestamp column; we model it as a
list of records (its `NOT NULL` and numeric-width column constraints are
abstracted; an external constraint or connectivity failure is injected through
the `dbFail` oracle).  `INSERT ... ON CONFLICT (symbol, trade_date) DO UPDATE`
updates the conflicting row's value columns and sets `last_updated = NOW()`
for a key that is present, and inserts a fresh row otherwise; Postgres raises
an error when a single such command would affect the same row twice (two rows
of one batch sharing a key). -/

/-- One stored row of `daily_stock_prices`. -/
structure TableRecord where
  symbol : String
  trade_date : PyDate
  open_price : ℚ
  high_price : ℚ
  low_price : ℚ
  close_price : ℚ
  volume : ℤ
  last_updated : Nat
deriving DecidableEq, Repr

/-- The committed database state behind an open connection (autocommit is
disabled; `upsert_stock_data` controls the transaction explicitly). -/
structure Conn where
  committed : List TableRecord
deriving DecidableEq, Repr

def rowKey (r : PriceRow) : String × PyDate := (r.symbol, r.trade_date)

def recKey (rec : TableRecord) : String × PyDate := (rec.symbol, rec.trade_date)

/-- The record stored for a row when it is inserted or updated at time `now`
(`last_updated = NOW()`). -/
def recordOfRow (now : Nat) (r : PriceRow) : TableRecord :=
  ⟨r.symbol, r.trade_date, r.open_price, r.high_price, r.low_price,
    r.close_price, r.volume, now⟩

/-- Effect of one `VALUES` tuple of the `INSERT ... ON CONFLICT DO UPDATE`:
update the row with the conflicting primary key if present, else insert. -/
def applyRow (now : Nat) (t : List TableRecord) (r : PriceRow) : List TableRecord :=
  if t.any (fun rec => recKey rec = rowKey r) then
    t.map (fun rec => if recKey rec = rowKey r then recordOfRow now r else rec)
  else
    t ++ [recordOfRow now r]

/-- Effect of the whole batch on the table. -/
def applyRows (now : Nat) (t : List TableRecord) (rows : List PriceRow) :
    List TableRecord :=
  rows.foldl (applyRow now) t

/-- Result of `upsert_stock_data`: the connection afterwards, the re-raised
`psycopg2.Error` if any, and how many SQL commands were executed. -/
structure UpsertResult where
  conn : Conn
  error : Option String
  execCount : Nat
deriving DecidableEq, Repr

/-- Postgres's message when one batch contains two rows with the same primary
key. -/
def onConflictTwiceMsg : String :=
  "ON CONFLICT DO UPDATE command cannot affect row a second time"

/-- `upsert_stock_data(conn, rows)`: return immediately on an empty batch;
otherwise run the single `INSERT ... ON CONFLICT DO UPDATE` and commit, and on
any `psycopg2.Error` roll the transaction back and re-raise.  `dbFail`
injects an external database failure (constraint violation, connectivity
loss); the duplicate-key-in-batch error is intrinsic. -/
def upsert_stock_data (dbFail : Option String) (now : Nat) (conn : Conn)
    (rows : List PriceRow) : UpsertResult :=
  if rows.isEmpty then
    ⟨conn, none, 0⟩
  else if ¬ (rows.map rowKey).Nodup then
    ⟨⟨conn.committed⟩, some onConflictTwiceMsg, 1⟩
  else
    match dbFail with
    | some e => ⟨⟨conn.committed⟩, some e, 1⟩
    | none => ⟨⟨applyRows now conn.committed rows⟩, none, 1⟩

/-- `get_db_connection()`: resolve the three required and two defaulted
configuration variables, then connect (autocommit disabled).  `connectFail`
injects a `psycopg2.Error` from `psycopg2.connect`; `table` is the database
state the new connection sees. -/
def get_db_connection (env : Env) (connectFail : Option String)
    (table : List TableRecord) : Except PipelineError Conn :=
  match get_env_var env "POSTGRES_USER" none true with
  | .error e => .error e
  | .ok _user =>
    match get_env_var env "POSTGRES_PASSWORD" none true with
    | .error e => .error e
    | .ok _password =>
      match get_env_var env "POSTGRES_DB" none true with
      | .error e => .error e
      | .ok _db =>
        match get_env_var env "POSTGRES_HOST" (some "postgres") false with
        | .error e => .error e
        | .ok _host =>
          match get_env_var env "POSTGRES_PORT" (some "5432") false with
          | .error e => .error e
          | .ok _port =>
            match connectFail with
            | some e => .error (.connectionFailed e)
            | none => .ok ⟨table⟩

/-- `ensure_table_exists(conn)`: executes the idempotent
`CREATE TABLE IF NOT EXISTS daily_stock_prices (...)`; the table contents are
untouched.  `ensureFail` injects a `psycopg2.Error` from the DDL execution. -/
def ensure_table_exists (ensureFail : Option String) (conn : Conn) :
    Except String Conn :=
  match ensureFail with
  | some e => .error e
  | none => .ok conn

/-! ## `main` -/

/-- Everything outside the program that one run of `main` can observe: the
environment, what the network would answer, the injected database failures,
the committed table, and the clock. -/
structure World where
  env : Env
  http : HttpResult
  connectFail : Option String
  ensureFail : Option String
  dbFail : Option String
  table : List TableRecord
  now : Nat

/-- The observable outcome of one run of `main`: the returned-or-raised
result, whether the HTTP request was issued, whether a database connection was
opened and whether it was closed, and the committed table afterwards. -/
structure RunResult where
  result : Except PipelineError Unit
  httpCalled : Bool
  connOpened : Bool
  connClosed : Bool
  table : List TableRecord

/-- `symbol = get_env_var("STOCK_SYMBOL", "MSFT")`: a defaulted, not-required
lookup; it cannot raise and always yields a value, so the `.getD` fallback is
unreachable. -/
def resolveSymbol (env : Env) : String :=
  match get_env_var env "STOCK_SYMBOL" (some "MSFT") false with
  | .ok v => v.getD "MSFT"
  | .error _ => "MSFT"

/-- `main()`: resolve the symbol (defaulted, not required), fetch, parse, then
connect and — under `try/finally conn.close()` — create the schema and upsert.
Every exception is logged and re-raised unchanged by the outer handler. -/
def main (w : World) : RunResult :=
  let symbol := resolveSymbol w.env
  match fetch_stock_data w.env w.http with
  | (.error e, called) => ⟨.error e, called, false, false, w.table⟩
  | (.ok ts, called) =>
    let rows := parse_time_series symbol ts
    match get_db_connection w.env w.connectFail w.table with
    | .error e => ⟨.error e, called, false, false, w.table⟩
    | .ok conn =>
      match ensure_table_exists w.ensureFail conn with
      | .error e =>
        -- `finally: conn.close()` runs before the exception propagates.
        ⟨.error (.storageError e), called, true, true, conn.committed⟩
      | .ok conn' =>
        let res := upsert_stock_data w.dbFail w.now conn' rows
        -- `finally: conn.close()` runs on the success path too.
        match res.error with
        | some e => ⟨.error (.storageError e), called, true, true, res.conn.committed⟩
        | none => ⟨.ok (), called, true, true, res.conn.committed⟩

/-! ## General lemmas -/

/-- A required lookup with no default: error exactly when the variable is
unset or empty, and otherwise return the environment's value. -/
theorem get_env_var_required (env : Env) (name : String) :
    get_env_var env name none true =
      if optStrFalsy (env name) then .error (.configMissing name) else .ok (env name) := by
  cases h : env name <;> simp [get_env_var, h]

/-- A `filterMap` whose function succeeds everywhere keeps the length. -/
theorem length_filterMap_all_some {α β : Type _} (f : α → Option β) (l : List α)
    (h : ∀ e ∈ l, (f e).isSome = true) : (l.filterMap f).length = l.length := by
  induction l with
  | nil => rfl
  | cons a rest ih =>
    have ha := h a (List.mem_cons_self a rest)
    have ih2 := ih fun e he => h e (List.mem_cons_of_mem a he)
    cases hfa : f a
    · rw [hfa] at ha; simp at ha
    · rw [List.filterMap_cons, hfa, List.length_cons, List.length_cons, ih2]

/-- The empty string is falsy. -/
theorem optStrFalsy_some_empty : optStrFalsy (some "") = true := by decide

/-!  ## The claims -/

/-- Claim C1: on a success-status response whose JSON body contains
`"Error Message"`, `fetch_stock_data` raises the remote-API error carrying the
provider's message, whatever the `"Time Series (Daily)"` key holds — the body
is never returned as data; and a success-status body with neither key raises
the generic unexpected-shape error. -/
theorem fetch_error_payload_precedence (env : Env) (body : ApiBody)
    (hkey : optStrFalsy (env "ALPHAVANTAGE_API_KEY") = false) :
    (∀ m, body.errorMessage = some m →
        fetch_stock_data env (.response true (some body)) = (.error (.apiError m), true))
    ∧ (body.errorMessage = none → body.timeSeries = none →
        fetch_stock_data env (.response true (some body)) = (.error .unexpectedResponse, true)) := by
  constructor
  · intro m hm
    simp [fetch_stock_data, get_env_var_required, hkey, hm]
  · intro hm hts
    simp [fetch_stock_data, get_env_var_required, hkey, hm, hts]

theorem fetch_error_payload_precedence_witness :
    fetch_stock_data (fun n => if n = "ALPHAVANTAGE_API_KEY" then some "demo" else none)
        (.response true (some ⟨some "Invalid API call.", some [("2024-01-02", [])]⟩))
      = (.error (.apiError "Invalid API call."), true) :=
  (fetch_error_payload_precedence _ _ (by decide)).1 _ rfl

/-- Claim C5: when the API-credential variable is unset, `fetch_stock_data`
(and hence `main`) raises the missing-configuration error for it and no HTTP
request is issued in that run. -/
theorem missing_api_key_no_network (w : World)
    (h : w.env "ALPHAVANTAGE_API_KEY" = none) :
    fetch_stock_data w.env w.http = (.error (.configMissing "ALPHAVANTAGE_API_KEY"), false)
    ∧ (main w).result = .error (.configMissing "ALPHAVANTAGE_API_KEY")
    ∧ (main w).httpCalled = false := by
  have hfetch : fetch_stock_data w.env w.http
      = (.error (.configMissing "ALPHAVANTAGE_API_KEY"), false) := by
    simp [fetch_stock_data, get_env_var_required, h, optStrFalsy]
  refine ⟨hfetch, ?_, ?_⟩ <;> simp [main, hfetch]

theorem missing_api_key_no_network_witness :
    fetch_stock_data (fun _ => none) .netError
      = (.error (.configMissing "ALPHAVANTAGE_API_KEY"), false)
    ∧ (main ⟨fun _ => none, .netError, none, none, none, [], 0⟩).result
      = .error (.configMissing "ALPHAVANTAGE_API_KEY")
    ∧ (main ⟨fun _ => none, .netError, none, none, none, [], 0⟩).httpCalled = false :=
  missing_api_key_no_network ⟨fun _ => none, .netError, none, none, none, [], 0⟩ rfl

/-- Claim C10: every `required=True` lookup (the API credential and the
database user, password and name) treats a variable set to the empty string
exactly like an unset one: it raises the missing-configuration error instead
of returning `""`. -/
theorem required_empty_treated_as_unset (env : Env) :
    (∀ name, env name = some "" →
        get_env_var env name none true = .error (.configMissing name)
        ∧ ∀ env2 : Env, env2 name = none →
            get_env_var env name none true = get_env_var env2 name none true)
    ∧ (env "ALPHAVANTAGE_API_KEY" = some "" → ∀ http,
        fetch_stock_data env http = (.error (.configMissing "ALPHAVANTAGE_API_KEY"), false))
    ∧ (env "POSTGRES_USER" = some "" → ∀ cf t,
        get_db_connection env cf t = .error (.configMissing "POSTGRES_USER"))
    ∧ (optStrFalsy (env "POSTGRES_USER") = false → env "POSTGRES_PASSWORD" = some "" →
        ∀ cf t, get_db_connection env cf t = .error (.configMissing "POSTGRES_PASSWORD"))
    ∧ (optStrFalsy (env "POSTGRES_USER") = false →
        optStrFalsy (env "POSTGRES_PASSWORD") = false → env "POSTGRES_DB" = some "" →
        ∀ cf t, get_db_connection env cf t = .error (.configMissing "POSTGRES_DB")) := by
  refine ⟨?_, ?_, ?_, ?_, ?_⟩
  · intro name hname
    refine ⟨by simp [get_env_var_required, hname, optStrFalsy_some_empty], ?_⟩
    intro env2 h2
    have h1 : get_env_var env name none true = .error (.configMissing name) := by
      simp [get_env_var_required, hname, optStrFalsy_some_empty]
    have h3 : get_env_var env2 name none true = .error (.configMissing name) := by
      simp [get_env_var_required, h2, optStrFalsy]
    rw [h1, h3]
  · intro hkey http
    simp [fetch_stock_data, get_env_var_required, hkey, optStrFalsy_some_empty]
  · intro huser cf t
    simp [get_db_connection, get_env_var_required, huser, optStrFalsy_some_empty]
  · intro huser hpass cf t
    simp [get_db_connection, get_env_var_required, huser, hpass, optStrFalsy_some_empty]
  · intro huser hpass hdb cf t
    simp [get_db_connection, get_env_var_required, huser, hpass, hdb, optStrFalsy_some_empty]

/-- Claim C6: an empty raw time series, or one whose entries are all
malformed, parses to the empty row list; and upserting an empty row list is a
successful no-op that executes no SQL and leaves the connection (hence the
table) unchanged. -/
theorem empty_inputs_are_benign (symbol : String) :
    parse_time_series symbol [] = []
    ∧ (∀ ts : List (String × List (String × String)),
        (∀ e ∈ ts, parseEntry symbol e.1 e.2 = none) → parse_time_series symbol ts = [])
    ∧ (∀ dbFail now conn, upsert_stock_data dbFail now conn [] = ⟨conn, none, 0⟩) := by
  refine ⟨rfl, ?_, ?_⟩
  · intro ts hts
    rw [parse_time_series_eq_filterMap]
    exact List.filterMap_eq_nil_iff.mpr fun e he => hts e he
  · intro dbFail now conn
    simp [upsert_stock_data]

/-- Claim C7: the documented example — symbol `"MSFT"` with the single raw
entry for `"2024-01-02"` — normalizes to exactly the row
`("MSFT", 2024-01-02, 370.0, 375.5, 369.0, 374.0, 21000000)`. -/
theorem msft_example_normalizes :
    parse_time_series "MSFT"
        [("2024-01-02",
          [("1. open", "370.0"), ("2. high", "375.5"), ("3. low", "369.0"),
           ("4. close", "374.0"), ("5. volume", "21000000")])]
      = [⟨"MSFT", ⟨2024, 1, 2⟩, 370, 751 / 2, 369, 374, 21000000⟩] := by
  decide

/-- Claim C9's general part depends on inverting the `parseEntry` chain; an
entry that produced a row read its volume string and coerced it through
`float` then `int`. -/
theorem parseEntry_volume_eq (symbol date_str : String)
    (daily_data : List (String × String)) (row : PriceRow)
    (h : parseEntry symbol date_str daily_data = some row) :
    ∃ v, dictGet daily_data "5. volume" = some v
      ∧ (pyFloat v).map pyIntOfFloat = some row.volume := by
  simp only [parseEntry, Option.pure_def, Option.bind_eq_bind, Option.bind_eq_some,
    Option.map_eq_some', Option.some.injEq] at h
  obtain ⟨td, _, s1, _, q1, _, s2, _, q2, _, s3, _, q3, _, s4, _, q4, _, s5, hs5, z, ⟨q5, hq5, hz⟩, hrow⟩ := h
  exact ⟨s5, hs5, by rw [hq5]; simp [hz, ← hrow]⟩

set_option maxRecDepth 40000 in
/-- Claim C9: a well-formed entry's volume is the integer obtained from its
string through float conversion and truncation toward zero: `"21000000"`
gives `21000000`, the fractional `"100.9"` gives `100`, and an integer too
large for exact binary64 representation (here `2^53 + 1`) is stored changed —
the exact decimal value of the string is `9007199254740993` but the stored
volume is `9007199254740992`. -/
theorem volume_truncated_via_float (symbol date_str : String)
    (daily_data : List (String × String)) (row : PriceRow)
    (h : parseEntry symbol date_str daily_data = some row) :
    (∃ v, dictGet daily_data "5. volume" = some v
        ∧ (pyFloat v).map pyIntOfFloat = some row.volume)
    ∧ (pyFloat "21000000").map pyIntOfFloat = some 21000000
    ∧ (pyFloat "100.9").map pyIntOfFloat = some 100
    ∧ parseDecimal "9007199254740993" = some 9007199254740993
    ∧ (pyFloat "9007199254740993").map pyIntOfFloat = some 9007199254740992 :=
  ⟨parseEntry_volume_eq symbol date_str daily_data row h,
    by decide, by decide, by decide, by decide⟩

set_option maxRecDepth 40000 in
theorem volume_truncated_via_float_witness :
    ((∃ v, dictGet [("5. volume", "100.9")] "5. volume" = some v
        ∧ (pyFloat v).map pyIntOfFloat
          = some (⟨"MSFT", ⟨2024, 1, 2⟩, 0, 0, 0, 0, 100⟩ : PriceRow).volume)
    ∧ (pyFloat "21000000").map pyIntOfFloat = some 21000000
    ∧ (pyFloat "100.9").map pyIntOfFloat = some 100
    ∧ parseDecimal "9007199254740993" = some 9007199254740993
    ∧ (pyFloat "9007199254740993").map pyIntOfFloat = some 9007199254740992) :=
  volume_truncated_via_float "MSFT" "2024-01-02"
    [("1. open", "0"), ("2. high", "0"), ("3. low", "0"), ("4. close", "0"),
     ("5. volume", "100.9")]
    ⟨"MSFT", ⟨2024, 1, 2⟩, 0, 0, 0, 0, 100⟩ (by decide)

/-- One required field of an entry is bad: the key is absent from the field
mapping (`KeyError`), or its value does not parse as a float (`ValueError`). -/
def fieldNonNumeric (daily_data : List (String × String)) (key : String) : Prop :=
  dictGet daily_data key = none
  ∨ ∃ v, dictGet daily_data key = some v ∧ pyFloat v = none

/-- An entry is malformed in one of the ways the loop body's `except
(KeyError, ValueError)` recovers from: the date string fails strict
`%Y-%m-%d` parsing, or any of the five required fields is absent or
non-numeric. -/
def entryMalformed (date_str : String) (daily_data : List (String × String)) : Prop :=
  strptimeYMD date_str = none
  ∨ fieldNonNumeric daily_data "1. open"
  ∨ fieldNonNumeric daily_data "2. high"
  ∨ fieldNonNumeric daily_data "3. low"
  ∨ fieldNonNumeric daily_data "4. close"
  ∨ fieldNonNumeric daily_data "5. volume"

/-- One required field of an entry is good: present and parseable as a float. -/
def fieldNumeric (daily_data : List (String × String)) (key : String) : Prop :=
  ∃ v, dictGet daily_data key = some v ∧ (pyFloat v).isSome = true

set_option maxHeartbeats 1000000 in
/-- An entry yields a row exactly when the date parses and all five required
fields are present and numeric — the loop body's six coercions in source
order. -/
theorem parseEntry_isSome_iff (symbol date_str : String)
    (daily_data : List (String × String)) :
    (parseEntry symbol date_str daily_data).isSome = true
      ↔ (strptimeYMD date_str).isSome = true
        ∧ fieldNumeric daily_data "1. open"
        ∧ fieldNumeric daily_data "2. high"
        ∧ fieldNumeric daily_data "3. low"
        ∧ fieldNumeric daily_data "4. close"
        ∧ fieldNumeric daily_data "5. volume" := by
  unfold parseEntry fieldNumeric
  cases strptimeYMD date_str <;> simp
  cases dictGet daily_data "1. open" <;> simp
  rename_i s1
  cases pyFloat s1 <;> simp
  cases dictGet daily_data "2. high" <;> simp
  rename_i s2
  cases pyFloat s2 <;> simp
  cases dictGet daily_data "3. low" <;> simp
  rename_i s3
  cases pyFloat s3 <;> simp
  cases dictGet daily_data "4. close" <;> simp
  rename_i s4
  cases pyFloat s4 <;> simp
  cases dictGet daily_data "5. volume" <;> simp
  rename_i s5
  cases pyFloat s5 <;> simp

/-- A field cannot be both good and bad. -/
theorem fieldNumeric_not_nonNumeric (daily_data : List (String × String))
    (key : String) (hok : fieldNumeric daily_data key)
    (hbad : fieldNonNumeric daily_data key) : False := by
  obtain ⟨v, hv, hvsome⟩ := hok
  rcases hbad with hnone | ⟨w, hw, hwnum⟩
  · rw [hnone] at hv
    cases hv
  · rw [hw] at hv
    injection hv with hvw
    subst hvw
    rw [hwnum] at hvsome
    cases hvsome

/-- A malformed entry raises inside the loop body — at whichever of the six
coercions fails first — so it yields no row. -/
theorem parseEntry_none_of_malformed (symbol date_str : String)
    (daily_data : List (String × String))
    (h : entryMalformed date_str daily_data) :
    parseEntry symbol date_str daily_data = none := by
  rcases hp : parseEntry symbol date_str daily_data with _ | row
  · rfl
  exfalso
  have hs : (parseEntry symbol date_str daily_data).isSome = true := by
    rw [hp]
    rfl
  rw [parseEntry_isSome_iff] at hs
  obtain ⟨hdate, h1, h2, h3, h4, h5⟩ := hs
  rcases h with hd | hf | hf | hf | hf | hf
  · rw [hd] at hdate
    cases hdate
  · exact fieldNumeric_not_nonNumeric daily_data "1. open" h1 hf
  · exact fieldNumeric_not_nonNumeric daily_data "2. high" h2 hf
  · exact fieldNumeric_not_nonNumeric daily_data "3. low" h3 hf
  · exact fieldNumeric_not_nonNumeric daily_data "4. close" h4 hf
  · exact fieldNumeric_not_nonNumeric daily_data "5. volume" h5 hf

/-- Claim C3: every entry is converted independently.  An entry whose date
string fails strict parsing, or with any of the five required fields absent
or non-numeric, is skipped; the output is exactly the per-entry parses of the
whole series (so the operation never fails as a whole); deleting one
malformed entry from a series changes nothing — whatever the other entries
contain; and a series of N entries whose one malformed entry sits among N − 1
well-formed ones yields exactly N − 1 rows. -/
theorem malformed_entries_skipped (symbol : String)
    (ts : List (String × List (String × String))) :
    (∀ date_str daily_data, entryMalformed date_str daily_data →
        parseEntry symbol date_str daily_data = none)
    ∧ parse_time_series symbol ts
        = ts.filterMap (fun e => parseEntry symbol e.1 e.2)
    ∧ (∀ pre post (bad : String × List (String × String)),
        ts = pre ++ bad :: post → entryMalformed bad.1 bad.2 →
        parse_time_series symbol ts = parse_time_series symbol (pre ++ post))
    ∧ ((∃ pre post bad,
          ts = pre ++ bad :: post ∧ entryMalformed bad.1 bad.2
          ∧ ∀ e ∈ pre ++ post, (parseEntry symbol e.1 e.2).isSome = true) →
        (parse_time_series symbol ts).length = ts.length - 1) := by
  refine ⟨fun d dd h => parseEntry_none_of_malformed symbol d dd h,
    parse_time_series_eq_filterMap symbol ts, ?_, ?_⟩
  · intro pre post bad hts hbad
    subst hts
    rw [parse_time_series_eq_filterMap, parse_time_series_eq_filterMap,
      List.filterMap_append, List.filterMap_append, List.filterMap_cons,
      parseEntry_none_of_malformed symbol bad.1 bad.2 hbad]
  · rintro ⟨pre, post, bad, hts, hbad, hgood⟩
    have h3 : parse_time_series symbol ts
        = parse_time_series symbol (pre ++ post) := by
      subst hts
      rw [parse_time_series_eq_filterMap, parse_time_series_eq_filterMap,
        List.filterMap_append, List.filterMap_append, List.filterMap_cons,
        parseEntry_none_of_malformed symbol bad.1 bad.2 hbad]
    rw [h3, parse_time_series_eq_filterMap,
      length_filterMap_all_some _ _ hgood, hts]
    simp only [List.length_append, List.length_cons]
    omega

/-- Claim C4: a non-empty batch is applied in one transaction — when no error
is raised the committed table is the full batch applied (every row together,
one SQL command), and on any failure the transaction is rolled back, the
committed table is exactly what it was before the call, and the error raised
carries the underlying cause (the injected failure or the intrinsic
duplicate-key conflict).  No proper subset of the batch is ever committed. -/
theorem upsert_batch_atomic (dbFail : Option String) (now : Nat) (conn : Conn)
    (rows : List PriceRow) (hne : rows ≠ []) :
    ((upsert_stock_data dbFail now conn rows).error = none →
        upsert_stock_data dbFail now conn rows
          = ⟨⟨applyRows now conn.committed rows⟩, none, 1⟩)
    ∧ (∀ e, (upsert_stock_data dbFail now conn rows).error = some e →
        (upsert_stock_data dbFail now conn rows).conn.committed = conn.committed
        ∧ (dbFail = some e ∨ e = onConflictTwiceMsg)) := by
  have hne2 : rows.isEmpty = false := by
    cases rows with
    | nil => exact absurd rfl hne
    | cons a l => rfl
  by_cases hnd : (rows.map rowKey).Nodup
  · cases dbFail <;> simp [upsert_stock_data, hne2, hnd]
  · simp [upsert_stock_data, hne2, hnd]

theorem upsert_batch_atomic_witness :
    upsert_stock_data none 5 ⟨[]⟩
        [⟨"MSFT", ⟨2024, 1, 2⟩, 370, 751 / 2, 369, 374, 21000000⟩]
      = ⟨⟨[⟨"MSFT", ⟨2024, 1, 2⟩, 370, 751 / 2, 369, 374, 21000000, 5⟩]⟩, none, 1⟩ :=
  ((upsert_batch_atomic none 5 ⟨[]⟩
      [⟨"MSFT", ⟨2024, 1, 2⟩, 370, 751 / 2, 369, 374, 21000000⟩]
      (by decide)).1 (by decide)).trans (by decide)

/-- Claim C8: once `main` has opened the database connection it closes it on
every exit path — `connClosed` always coincides with `connOpened`; in
particular on the successful run, and when `ensure_table_exists` or
`upsert_stock_data` raises, where the storage error propagates to the caller
with the connection closed. -/
theorem connection_closed_every_exit (w : World) :
    ((main w).connClosed = (main w).connOpened)
    ∧ ((main w).result = .ok () →
        (main w).connOpened = true ∧ (main w).connClosed = true)
    ∧ (∀ e ts called, w.ensureFail = some e →
        fetch_stock_data w.env w.http = (.ok ts, called) →
        ∀ conn, get_db_connection w.env w.connectFail w.table = .ok conn →
        (main w).result = .error (.storageError e)
        ∧ (main w).connOpened = true ∧ (main w).connClosed = true)
    ∧ (∀ e ts called, w.ensureFail = none →
        fetch_stock_data w.env w.http = (.ok ts, called) →
        ∀ conn, get_db_connection w.env w.connectFail w.table = .ok conn →
        (upsert_stock_data w.dbFail w.now conn
            (parse_time_series (resolveSymbol w.env) ts)).error = some e →
        (main w).result = .error (.storageError e)
        ∧ (main w).connOpened = true ∧ (main w).connClosed = true) := by
  rcases hf : fetch_stock_data w.env w.http with ⟨e0 | ts0, called0⟩
  · simp [main, hf]
  rcases hdb : get_db_connection w.env w.connectFail w.table with e1 | conn1
  · simp [main, hf, hdb]
  cases he : w.ensureFail with
  | some e2 => simp [main, hf, hdb, he, ensure_table_exists]
  | none =>
    cases hu : (upsert_stock_data w.dbFail w.now conn1
        (parse_time_series (resolveSymbol w.env) ts0)).error with
    | some e3 => simp [main, hf, hdb, he, ensure_table_exists, hu]
    | none => simp [main, hf, hdb, he, ensure_table_exists, hu]

/-! ## Idempotence of the upsert (claim C2)

`last_updated` is the one column a repeated run may change, so the comparison
strips it; `applyRowV` is the upsert's action on the stripped table, and the
action commutes with stripping. -/

/-- A stored row without its `last_updated` column: the key and the value
columns. -/
abbrev ValRecord := String × PyDate × ℚ × ℚ × ℚ × ℚ × ℤ

def stripTime (rec : TableRecord) : ValRecord :=
  (rec.symbol, rec.trade_date, rec.open_price, rec.high_price, rec.low_price,
    rec.close_price, rec.volume)

def stripTimes (t : List TableRecord) : List ValRecord := t.map stripTime

def vKey (v : ValRecord) : String × PyDate := (v.1, v.2.1)

def valOfRow (r : PriceRow) : ValRecord :=
  (r.symbol, r.trade_date, r.open_price, r.high_price, r.low_price,
    r.close_price, r.volume)

def applyRowV (t : List ValRecord) (r : PriceRow) : List ValRecord :=
  if t.any (fun v => vKey v = rowKey r) then
    t.map (fun v => if vKey v = rowKey r then valOfRow r else v)
  else
    t ++ [valOfRow r]

def applyRowsV (t : List ValRecord) (rows : List PriceRow) : List ValRecord :=
  rows.foldl applyRowV t

theorem stripTime_recordOfRow (now : Nat) (r : PriceRow) :
    stripTime (recordOfRow now r) = valOfRow r := rfl

theorem vKey_stripTime (rec : TableRecord) : vKey (stripTime rec) = recKey rec := rfl

theorem vKey_valOfRow (r : PriceRow) : vKey (valOfRow r) = rowKey r := rfl

/-- Stripping `last_updated` commutes with one row's upsert action. -/
theorem stripTimes_applyRow (now : Nat) (t : List TableRecord) (r : PriceRow) :
    stripTimes (applyRow now t r) = applyRowV (stripTimes t) r := by
  have hany : (stripTimes t).any (fun v => vKey v = rowKey r)
      = t.any (fun rec => recKey rec = rowKey r) := by
    induction t with
    | nil => rfl
    | cons rec rest ih =>
      unfold stripTimes at ih ⊢
      simp [List.any_cons, vKey_stripTime, ih]
  unfold applyRow applyRowV
  rw [hany]
  by_cases h : t.any (fun rec => recKey rec = rowKey r) = true
  · rw [if_pos h, if_pos h]
    unfold stripTimes
    rw [List.map_map, List.map_map]
    apply List.map_congr_left
    intro rec _
    by_cases hk : recKey rec = rowKey r <;>
      simp [Function.comp, hk, vKey_stripTime, stripTime_recordOfRow]
  · rw [if_neg h, if_neg h]
    unfold stripTimes
    rw [List.map_append]
    rfl

/-- Stripping `last_updated` commutes with the whole batch's action. -/
theorem stripTimes_applyRows (now : Nat) (t : List TableRecord)
    (rows : List PriceRow) :
    stripTimes (applyRows now t rows) = applyRowsV (stripTimes t) rows := by
  induction rows generalizing t with
  | nil => rfl
  | cons r rs ih =>
    unfold applyRows applyRowsV
    rw [List.foldl_cons, List.foldl_cons]
    have := ih (applyRow now t r)
    unfold applyRows applyRowsV at this
    rw [this, stripTimes_applyRow]

/-- The update branch of `applyRowV` leaves the records stored under another
key `k` alone. -/
theorem filter_map_update_ne (t : List ValRecord) (r : PriceRow)
    (k : String × PyDate) (hk : rowKey r ≠ k) :
    (t.map (fun v => if vKey v = rowKey r then valOfRow r else v)).filter
        (fun v => vKey v = k)
      = t.filter (fun v => vKey v = k) := by
  induction t with
  | nil => rfl
  | cons v rest ih =>
    rw [List.map_cons, List.filter_cons, List.filter_cons]
    by_cases hv : vKey v = rowKey r
    · rw [if_pos hv]
      simp [vKey_valOfRow, hv, hk, ih]
    · rw [if_neg hv]
      by_cases h1 : vKey v = k <;> simp [h1, ih]

/-- A row whose key is not `k` leaves the records stored under `k` alone. -/
theorem filter_applyRowV_ne (t : List ValRecord) (r : PriceRow)
    (k : String × PyDate) (hk : rowKey r ≠ k) :
    (applyRowV t r).filter (fun v => vKey v = k)
      = t.filter (fun v => vKey v = k) := by
  unfold applyRowV
  split
  · exact filter_map_update_ne t r k hk
  · rw [List.filter_append]
    have h0 : ([valOfRow r].filter (fun v => vKey v = k)) = [] := by
      simp [vKey_valOfRow, hk]
    rw [h0, List.append_nil]

/-- A batch none of whose keys is `k` leaves the records stored under `k`
alone. -/
theorem filter_applyRowsV_avoid (rows : List PriceRow) (t : List ValRecord)
    (k : String × PyDate) (h : ∀ r ∈ rows, rowKey r ≠ k) :
    (applyRowsV t rows).filter (fun v => vKey v = k)
      = t.filter (fun v => vKey v = k) := by
  induction rows generalizing t with
  | nil => rfl
  | cons r rs ih =>
    unfold applyRowsV
    rw [List.foldl_cons]
    have h1 := ih (applyRowV t r) fun r2 hr2 => h r2 (List.mem_cons_of_mem r hr2)
    unfold applyRowsV at h1
    rw [h1, filter_applyRowV_ne t r k (h r (List.mem_cons_self r rs))]

/-- After one row's action, every record stored under that row's key is the
row's record, and the row's record is present. -/
theorem applyRowV_at_key (t : List ValRecord) (r : PriceRow) :
    (∀ v ∈ applyRowV t r, vKey v = rowKey r → v = valOfRow r)
    ∧ valOfRow r ∈ applyRowV t r := by
  unfold applyRowV
  split
  case isTrue hany =>
    constructor
    · intro v hv hkv
      obtain ⟨u, _, hu⟩ := List.mem_map.mp hv
      by_cases hk : vKey u = rowKey r
      · rw [if_pos hk] at hu; exact hu.symm
      · rw [if_neg hk] at hu
        subst hu
        exact absurd hkv hk
    · obtain ⟨u, hu, hku⟩ := List.any_eq_true.mp hany
      refine List.mem_map.mpr ⟨u, hu, ?_⟩
      rw [if_pos (of_decide_eq_true hku)]
  case isFalse hany =>
    constructor
    · intro v hv hk
      rcases List.mem_append.mp hv with h1 | h1
      · exact absurd (List.any_eq_true.mpr ⟨v, h1, decide_eq_true hk⟩) hany
      · simpa using h1
    · exact List.mem_append.mpr (Or.inr (List.mem_singleton.mpr rfl))

/-- Updating every record under `k` to the value it already has is the
identity. -/
theorem map_update_id (t : List ValRecord) (k : String × PyDate) (x : ValRecord)
    (h : ∀ v ∈ t, vKey v = k → v = x) :
    t.map (fun v => if vKey v = k then x else v) = t := by
  induction t with
  | nil => rfl
  | cons v rest ih =>
    rw [List.map_cons, ih fun u hu => h u (List.mem_cons_of_mem v hu)]
    by_cases hv : vKey v = k
    · rw [if_pos hv, (h v (List.mem_cons_self v rest) hv)]
    · rw [if_neg hv]

/-- A row whose record is already stored (and is the only record under its
key) acts as the identity. -/
theorem applyRowV_fix (t : List ValRecord) (r : PriceRow)
    (hmem : valOfRow r ∈ t)
    (hall : ∀ v ∈ t, vKey v = rowKey r → v = valOfRow r) :
    applyRowV t r = t := by
  unfold applyRowV
  rw [if_pos (List.any_eq_true.mpr ⟨valOfRow r, hmem, decide_eq_true (vKey_valOfRow r)⟩)]
  exact map_update_id t (rowKey r) (valOfRow r) hall

/-- Replaying a batch with pairwise distinct keys is the identity: the first
pass made every record under the batch's keys the batch's value, and the
second pass rewrites each to the same value. -/
theorem applyRowsV_idem (rows : List PriceRow) (S : List ValRecord)
    (hnd : (rows.map rowKey).Nodup) :
    applyRowsV (applyRowsV S rows) rows = applyRowsV S rows := by
  induction rows generalizing S with
  | nil => rfl
  | cons r rs ih =>
    rw [List.map_cons, List.nodup_cons] at hnd
    obtain ⟨hr, hrs⟩ := hnd
    have havoid : ∀ r2 ∈ rs, rowKey r2 ≠ rowKey r := by
      intro r2 hr2 hkey
      exact hr (hkey ▸ List.mem_map_of_mem rowKey hr2)
    have hpres := filter_applyRowsV_avoid rs (applyRowV S r) (rowKey r) havoid
    have hatk := applyRowV_at_key S r
    have hall2 : ∀ v ∈ applyRowsV (applyRowV S r) rs, vKey v = rowKey r
        → v = valOfRow r := by
      intro v hv hk
      have hvf : v ∈ (applyRowsV (applyRowV S r) rs).filter
          (fun v => vKey v = rowKey r) :=
        List.mem_filter.mpr ⟨hv, decide_eq_true hk⟩
      rw [hpres] at hvf
      obtain ⟨hv2, _⟩ := List.mem_filter.mp hvf
      exact hatk.1 v hv2 hk
    have hmem2 : valOfRow r ∈ applyRowsV (applyRowV S r) rs := by
      have hvf : valOfRow r ∈ (applyRowV S r).filter (fun v => vKey v = rowKey r) :=
        List.mem_filter.mpr ⟨hatk.2, decide_eq_true (vKey_valOfRow r)⟩
      rw [← hpres] at hvf
      exact (List.mem_filter.mp hvf).1
    have step1 : applyRowV (applyRowsV (applyRowV S r) rs) r
        = applyRowsV (applyRowV S r) rs :=
      applyRowV_fix _ r hmem2 hall2
    show applyRowsV (applyRowsV (applyRowV S r) rs) (r :: rs)
        = applyRowsV (applyRowV S r) rs
    have h3 := ih (applyRowV S r) hrs
    unfold applyRowsV at step1 h3 ⊢
    rw [List.foldl_cons, step1, h3]

/-- Updating the record under a row's key does not change the table's key
column. -/
theorem map_recKey_update (t : List TableRecord) (r : PriceRow) (now : Nat) :
    (t.map (fun rec => if recKey rec = rowKey r then recordOfRow now r else rec)).map
        recKey
      = t.map recKey := by
  rw [List.map_map]
  apply List.map_congr_left
  intro rec _
  by_cases h : recKey rec = rowKey r
  · show recKey (if recKey rec = rowKey r then recordOfRow now r else rec) = recKey rec
    rw [if_pos h, h]
    rfl
  · show recKey (if recKey rec = rowKey r then recordOfRow now r else rec) = recKey rec
    rw [if_neg h]

/-- Claim C2: replaying an identical batch leaves the table identical apart
from `last_updated` — the stored key column and all value columns (captured by
`stripTimes`) are unchanged — in every case (success, injected failure, or the
intrinsic duplicate-key error); and upserting one row whose key is already
present overwrites that record in place with the row's values and a fresh
`last_updated`, keeping the key column unchanged and duplicate-free. -/
theorem upsert_idempotent_and_overwrites (dbFail : Option String)
    (now₁ now₂ : Nat) (conn : Conn) (rows : List PriceRow) :
    stripTimes ((upsert_stock_data dbFail now₂
          ((upsert_stock_data dbFail now₁ conn rows).conn) rows).conn.committed)
      = stripTimes ((upsert_stock_data dbFail now₁ conn rows).conn.committed)
    ∧ (∀ r : PriceRow, ∀ now : Nat,
        (conn.committed.map recKey).Nodup →
        rowKey r ∈ conn.committed.map recKey →
        ((upsert_stock_data none now conn [r]).conn.committed.map recKey
            = conn.committed.map recKey)
        ∧ ((upsert_stock_data none now conn [r]).conn.committed.map recKey).Nodup
        ∧ (∀ rec ∈ (upsert_stock_data none now conn [r]).conn.committed,
            recKey rec = rowKey r → rec = recordOfRow now r)) := by
  constructor
  · by_cases hemp : rows.isEmpty = true
    · obtain rfl : rows = [] := List.isEmpty_iff.mp hemp
      rfl
    · by_cases hnd : (rows.map rowKey).Nodup
      · cases dbFail with
        | some e =>
          unfold upsert_stock_data
          simp only [if_neg hemp, if_neg (not_not_intro hnd)]
        | none =>
          unfold upsert_stock_data
          simp only [if_neg hemp, if_neg (not_not_intro hnd)]
          show stripTimes (applyRows now₂ (applyRows now₁ conn.committed rows) rows)
            = stripTimes (applyRows now₁ conn.committed rows)
          rw [stripTimes_applyRows, stripTimes_applyRows]
          exact applyRowsV_idem rows (stripTimes conn.committed) hnd
      · unfold upsert_stock_data
        simp only [if_neg hemp, if_pos hnd]
  · intro r now hnodup hkey
    obtain ⟨rec0, hrec0, hkeq⟩ : ∃ rec ∈ conn.committed, recKey rec = rowKey r := by
      obtain ⟨rec, hrec, hkeq⟩ := List.mem_map.mp hkey
      exact ⟨rec, hrec, hkeq⟩
    have hany : conn.committed.any (fun rec => recKey rec = rowKey r) = true :=
      List.any_eq_true.mpr ⟨rec0, hrec0, decide_eq_true hkeq⟩
    have hred : (upsert_stock_data none now conn [r]).conn.committed
        = conn.committed.map
            (fun rec => if recKey rec = rowKey r then recordOfRow now r else rec) := by
      simp [upsert_stock_data, applyRows, applyRow, hany]
    refine ⟨?_, ?_, ?_⟩
    · rw [hred, map_recKey_update]
    · rw [hred, map_recKey_update]; exact hnodup
    · intro rec hrec hk
      rw [hred] at hrec
      obtain ⟨u, _, hu⟩ := List.mem_map.mp hrec
      by_cases h : recKey u = rowKey r
      · rw [if_pos h] at hu; exact hu.symm
      · rw [if_neg h] at hu
        subst hu
        exact absurd hk h

theorem upsert_idempotent_and_overwrites_witness :
    (stripTimes ((upsert_stock_data none 7
          ((upsert_stock_data none 5 ⟨[]⟩
              [⟨"MSFT", ⟨2024, 1, 2⟩, 370, 751 / 2, 369, 374, 21000000⟩]).conn)
          [⟨"MSFT", ⟨2024, 1, 2⟩, 370, 751 / 2, 369, 374, 21000000⟩]).conn.committed)
      = stripTimes ((upsert_stock_data none 5 ⟨[]⟩
          [⟨"MSFT", ⟨2024, 1, 2⟩, 370, 751 / 2, 369, 374, 21000000⟩]).conn.committed))
    ∧ ((upsert_stock_data none 9
          ⟨[⟨"MSFT", ⟨2024, 1, 2⟩, 370, 751 / 2, 369, 374, 21000000, 5⟩]⟩
          [⟨"MSFT", ⟨2024, 1, 2⟩, 371, 376, 368, 373, 22000000⟩]).conn.committed.map recKey
        = [⟨"MSFT", ⟨2024, 1, 2⟩, 370, 751 / 2, 369, 374, 21000000, 5⟩].map recKey)
      ∧ (∀ rec ∈ (upsert_stock_data none 9
            ⟨[⟨"MSFT", ⟨2024, 1, 2⟩, 370, 751 / 2, 369, 374, 21000000, 5⟩]⟩
            [⟨"MSFT", ⟨2024, 1, 2⟩, 371, 376, 368, 373, 22000000⟩]).conn.committed,
          recKey rec = rowKey ⟨"MSFT", ⟨2024, 1, 2⟩, 371, 376, 368, 373, 22000000⟩ →
          rec = recordOfRow 9 ⟨"MSFT", ⟨2024, 1, 2⟩, 371, 376, 368, 373, 22000000⟩) :=
  ⟨(upsert_idempotent_and_overwrites none 5 7 ⟨[]⟩
      [⟨"MSFT", ⟨2024, 1, 2⟩, 370, 751 / 2, 369, 374, 21000000⟩]).1,
    ((upsert_idempotent_and_overwrites none 0 0
        ⟨[⟨"MSFT", ⟨2024, 1, 2⟩, 370, 751 / 2, 369, 374, 21000000, 5⟩]⟩ []).2
      ⟨"MSFT", ⟨2024, 1, 2⟩, 371, 376, 368, 373, 22000000⟩ 9
      (by decide) (by decide)).1,
    ((upsert_idempotent_and_overwrites none 0 0
        ⟨[⟨"MSFT", ⟨2024, 1, 2⟩, 370, 751 / 2, 369, 374, 21000000, 5⟩]⟩ []).2
      ⟨"MSFT", ⟨2024, 1, 2⟩, 371, 376, 368, 373, 22000000⟩ 9
      (by decide) (by decide)).2.2⟩

end StockPipeline
